import Mathlib

/-!
A shallow embedding of the hybrid retrieval engine of this repository
(src/src/tools.py; geoflow_agent.py contains a verbatim copy of the same
facade), together with proofs of the behavioural properties stated in the
specification.

The module-level retrieval wiring of tools.py loads a corpus of chunks,
builds a semantic retriever and a lexical retriever over it, combines them
in an EnsembleRetriever with weights [0.7, 0.3], and exposes one facade
function vector_search(query, n_results).

The two retrievers and the EnsembleRetriever are external library objects
whose implementations are not part of this repository: the retrievers are
embedded as abstract function parameters, and the Fusion Engine
(EnsembleRetriever) is modelled from the specification's description of
weighted reciprocal-rank fusion.  Scores are exact rationals.  The facade
body itself is translated directly from src/src/tools.py lines 51-91.
-/

/-- One indexed unit of text plus metadata: tools.py builds each corpus entry
as Document(page_content=doc, metadata=metadata or \x7b\x7d).  Metadata is a
finite string-keyed map, embedded as an association list; a chunk is identified
by its content+metadata pair. -/
structure Chunk where
  content : String
  metadata : List (String × String)
deriving DecidableEq, Repr

/-- One returned search record: the dict appended in the formatting loop of
vector_search (tools.py lines 83-89).  All fields are total strings or
numbers; there is no optional field. -/
structure SearchRecord where
  content : String
  source : String
  json_file : String
  search_type : String
  rank : Nat
deriving DecidableEq, Repr

/-- The module-level mutable state of tools.py: the loaded document list
(read-only after startup) and the two retrievers' result-count configuration,
vectorstore_retriever.search_kwargs["k"] and keyword_retriever.k, both mutated
by every vector_search call. -/
structure ModuleState where
  docs : List Chunk
  kSem : Int
  kLex : Int
deriving DecidableEq, Repr

/-- The caller-error taxonomy of the specification relevant to the facade.
The source facade contains no raise statement, so the embedding below never
produces this error; the type exists so that failure claims are statable. -/
inductive SearchError where
  | invalidArgument
deriving DecidableEq, Repr

/-- Semantic fusion weight from EnsembleRetriever(..., weights=[0.7, 0.3])
(tools.py line 46), as an exact rational. -/
def w_semantic : ℚ := 7 / 10

/-- Lexical fusion weight from EnsembleRetriever(..., weights=[0.7, 0.3])
(tools.py line 46), as an exact rational. -/
def w_lexical : ℚ := 3 / 10

/-- 1-based rank of the first occurrence of a chunk in a result list, or none
when the chunk is absent. -/
def rank1 (c : Chunk) : List Chunk → Option Nat
  | [] => none
  | x :: xs => if x = c then some 1 else (rank1 c xs).map (· + 1)

/-- Modelled from the spec: the Fusion Engine is langchain's EnsembleRetriever,
whose implementation is not among this repository's sources.  Spec section 4.4
step 2: a chunk at 1-based rank r in a source list contributes weight / r to
its fused score from that source; an absent chunk contributes 0. -/
def rrContribution (w : ℚ) : Option Nat → ℚ
  | some r => w / r
  | none => 0

/-- Modelled from the spec: section 4.4 step 2, the fused score of a chunk
given the semantic result list S and the lexical result list L. -/
def fusedScore (S L : List Chunk) (c : Chunk) : ℚ :=
  rrContribution w_semantic (rank1 c S) + rrContribution w_lexical (rank1 c L)

/-- Modelled from the spec: section 4.4 step 3's ordering key — descending
fused score, ties by best (lowest) semantic rank (an absent chunk counts worse
than any present rank), then by original corpus order — encoded as an
ascending lexicographic key. -/
def sortKey (corpus S L : List Chunk) (c : Chunk) : Lex (ℚ × Lex (Nat × Nat)) :=
  toLex (-(fusedScore S L c),
    toLex ((rank1 c S).getD (S.length + 1), (rank1 c corpus).getD (corpus.length + 1)))

/-- The fused score of a chunk as an unreduced fraction of naturals
(numerator, positive denominator): with 1-based ranks a in the semantic and b
in the lexical list, 7/(10a) + 3/(10b) = (7b + 3a)/(10ab).  This integer
representation exists so that the sort comparator computes by
cross-multiplication (exact rational comparison without normalisation). -/
def scoreFrac (S L : List Chunk) (c : Chunk) : Nat × Nat :=
  match rank1 c S, rank1 c L with
  | some a, some b => (7 * b + 3 * a, 10 * (a * b))
  | some a, none => (7, 10 * a)
  | none, some b => (3, 10 * b)
  | none, none => (0, 1)

/-- Modelled from the spec: the boolean comparison realising section 4.4
step 3 — ascending in sortKey, computed on integers by cross-multiplying the
two score fractions. -/
def fuseLE (corpus S L : List Chunk) (a b : Chunk) : Bool :=
  let pa := scoreFrac S L a
  let pb := scoreFrac S L b
  if pa.1 * pb.2 = pb.1 * pa.2 then
    let ra := (rank1 a S).getD (S.length + 1)
    let rb := (rank1 b S).getD (S.length + 1)
    if ra = rb then
      decide ((rank1 a corpus).getD (corpus.length + 1) ≤
        (rank1 b corpus).getD (corpus.length + 1))
    else decide (ra < rb)
  else decide (pb.1 * pa.2 < pa.1 * pb.2)

/-- Modelled from the spec: the comparison of fuseLE as a decidable relation,
in the form expected by the sorting function. -/
def fuseRel (corpus S L : List Chunk) (a b : Chunk) : Prop :=
  fuseLE corpus S L a b = true

instance (corpus S L : List Chunk) : DecidableRel (fuseRel corpus S L) :=
  fun a b => (inferInstance : Decidable (fuseLE corpus S L a b = true))

/-- Modelled from the spec: the Fusion Engine (section 4.4): the candidates
are the chunks of either result list, deduplicated, sorted by descending fused
score with the spec's tie-breaks. -/
def fuse (corpus S L : List Chunk) : List Chunk :=
  ((S ++ L).dedup).insertionSort (fuseRel corpus S L)

/-- Python slice semantics of results[:n] for an arbitrary int n: a
nonnegative n takes the first n entries; a negative n drops the last |n|
entries (clamping at the empty list). -/
def pySliceTo (n : Int) (xs : List α) : List α :=
  if 0 ≤ n then xs.take n.toNat else xs.take (xs.length - (-n).toNat)

/-- The body of the record-formatting loop of vector_search (tools.py lines
81-89), carrying the running enumerate index: missing metadata keys default to
"Unknown" and rank is the 1-based position. -/
def formatFrom (ty : String) : Nat → List Chunk → List SearchRecord
  | _, [] => []
  | i, d :: ds =>
    { content := d.content
      source := (d.metadata.lookup "source_file").getD "Unknown"
      json_file := (d.metadata.lookup "json_file").getD "Unknown"
      search_type := ty
      rank := i + 1 } :: formatFrom ty (i + 1) ds

/-- The record-formatting loop of vector_search (tools.py lines 81-89),
started at enumerate index 0. -/
def formatResults (ty : String) (docs : List Chunk) : List SearchRecord :=
  formatFrom ty 0 docs

/-- Modelled from the spec: EnsembleRetriever.get_relevant_documents (the
Fusion Engine invocation at tools.py line 78) runs both configured retrievers
at their currently configured k over the loaded corpus and fuses the two
lists (section 4.4 step 1).  The retrievers themselves are external services
(embedding index, BM25); they appear as abstract parameters semR and lexR
mapping (corpus, query, k) to a result list. -/
def get_relevant_documents (semR lexR : List Chunk → String → Int → List Chunk)
    (st : ModuleState) (query : String) : List Chunk :=
  fuse st.docs (semR st.docs query st.kSem) (lexR st.docs query st.kLex)

/-- The search facade vector_search (tools.py lines 51-91): sets both
retrievers' k-configuration to n_results, selects the retriever by the
constant search_type = "hybrid" (the dead semantic/keyword branches are kept),
fetches the relevant documents, truncates with Python slicing
results[:n_results], and formats the records.  The Python function contains
no raise statement and no input validation, so the embedding always returns
ok. -/
def vector_search (semR lexR : List Chunk → String → Int → List Chunk)
    (st : ModuleState) (query : String) (n_results : Int) :
    Except SearchError (ModuleState × List SearchRecord) :=
  let search_type := "hybrid"
  let st := { st with kSem := n_results }
  let st := { st with kLex := n_results }
  let results :=
    if search_type = "semantic" then semR st.docs query st.kSem
    else if search_type = "keyword" then lexR st.docs query st.kLex
    else get_relevant_documents semR lexR st query
  let search_results := formatResults search_type (pySliceTo n_results results)
  .ok (st, search_results)

/-! Concrete chunks, retrievers and states used to validate the spec's worked
scenario (section 8) and to instantiate the theorems below on closed inputs. -/

/-- Scenario chunk A of spec section 8. -/
def chA : Chunk := ⟨"A", []⟩

/-- Scenario chunk B of spec section 8. -/
def chB : Chunk := ⟨"B", []⟩

/-- Scenario chunk C of spec section 8. -/
def chC : Chunk := ⟨"C", []⟩

/-- A concrete chunk with no metadata keys at all. -/
def cU : Chunk := ⟨"alpha", []⟩

/-- A concrete chunk with both recognised metadata keys present. -/
def cV : Chunk := ⟨"beta", [("source_file", "b.txt"), ("json_file", "b.json")]⟩

/-- A concrete retriever instance that always returns the empty result list. -/
def retEmpty : List Chunk → String → Int → List Chunk := fun _ _ _ => []

/-- A concrete retriever instance that returns the whole corpus in corpus
order, for every query and every k. -/
def retAll : List Chunk → String → Int → List Chunk := fun d _ _ => d

/-- The search record produced for cU at rank 1 in hybrid mode. -/
def recU : SearchRecord := ⟨"alpha", "Unknown", "Unknown", "hybrid", 1⟩

/-- A query string is blank when it is empty after trimming whitespace, that
is, when every character is whitespace.  The source code never trims or
inspects the query; this predicate only states the spec's precondition. -/
def isBlank (q : String) : Bool := q.data.all Char.isWhitespace

/-! Helper lemmas about ranks, the score fraction, the comparator and the
fused list. -/

theorem rank1_pos {c : Chunk} : ∀ {l : List Chunk} {r : Nat}, rank1 c l = some r → 1 ≤ r := by
  intro l
  induction l with
  | nil => intro r h; simp [rank1] at h
  | cons x xs ih =>
    intro r h
    by_cases hx : x = c
    · simp [rank1, hx] at h; omega
    · simp only [rank1, if_neg hx, Option.map_eq_some'] at h
      obtain ⟨s, _, hs⟩ := h
      omega

theorem rank1_eq_none_iff {c : Chunk} : ∀ {l : List Chunk}, rank1 c l = none ↔ c ∉ l := by
  intro l
  induction l with
  | nil => simp [rank1]
  | cons x xs ih =>
    by_cases hx : x = c
    · simp [rank1, hx]
    · simp [rank1, if_neg hx, ih, Ne.symm hx]

theorem rank1_cons_self (c : Chunk) (xs : List Chunk) : rank1 c (c :: xs) = some 1 := by
  simp [rank1]

theorem scoreFrac_den_pos (S L : List Chunk) (c : Chunk) : 0 < (scoreFrac S L c).2 := by
  unfold scoreFrac
  rcases hS : rank1 c S with _ | a <;> rcases hL : rank1 c L with _ | b <;> simp
  · exact rank1_pos hL
  · exact rank1_pos hS
  · exact ⟨rank1_pos hS, rank1_pos hL⟩

theorem fusedScore_eq_scoreFrac (S L : List Chunk) (c : Chunk) :
    fusedScore S L c = ((scoreFrac S L c).1 : ℚ) / ((scoreFrac S L c).2 : ℚ) := by
  unfold fusedScore scoreFrac rrContribution
  rcases hS : rank1 c S with _ | a <;> rcases hL : rank1 c L with _ | b
  · simp
  · have hb : (1 : Nat) ≤ b := rank1_pos hL
    have hb' : (b : ℚ) ≠ 0 := by positivity
    simp only [w_lexical]
    push_cast
    field_simp
  · have ha : (1 : Nat) ≤ a := rank1_pos hS
    have ha' : (a : ℚ) ≠ 0 := by positivity
    simp only [w_semantic]
    push_cast
    field_simp
  · have ha : (1 : Nat) ≤ a := rank1_pos hS
    have hb : (1 : Nat) ≤ b := rank1_pos hL
    have ha' : (a : ℚ) ≠ 0 := by positivity
    have hb' : (b : ℚ) ≠ 0 := by positivity
    simp only [w_semantic, w_lexical]
    push_cast
    field_simp
    ring

theorem fuseLE_iff (corpus S L : List Chunk) (a b : Chunk) :
    fuseLE corpus S L a b = true ↔ sortKey corpus S L a ≤ sortKey corpus S L b := by
  have hda := scoreFrac_den_pos S L a
  have hdb := scoreFrac_den_pos S L b
  have hcmp_eq : ((scoreFrac S L a).1 * (scoreFrac S L b).2 =
      (scoreFrac S L b).1 * (scoreFrac S L a).2) ↔ fusedScore S L a = fusedScore S L b := by
    rw [fusedScore_eq_scoreFrac S L a, fusedScore_eq_scoreFrac S L b,
      div_eq_div_iff (by positivity) (by positivity)]
    norm_cast
  have hcmp_lt : ((scoreFrac S L b).1 * (scoreFrac S L a).2 <
      (scoreFrac S L a).1 * (scoreFrac S L b).2) ↔ fusedScore S L b < fusedScore S L a := by
    rw [fusedScore_eq_scoreFrac S L a, fusedScore_eq_scoreFrac S L b,
      div_lt_div_iff₀ (by positivity) (by positivity)]
    norm_cast
  unfold fuseLE sortKey
  rw [Prod.Lex.le_iff]
  by_cases heq : (scoreFrac S L a).1 * (scoreFrac S L b).2 =
      (scoreFrac S L b).1 * (scoreFrac S L a).2
  · have hscore : fusedScore S L a = fusedScore S L b := hcmp_eq.mp heq
    simp only [if_pos heq, hscore, neg_inj, lt_self_iff_false, false_or, true_and,
      Prod.Lex.le_iff]
    by_cases hr : (rank1 a S).getD (S.length + 1) = (rank1 b S).getD (S.length + 1)
    · simp [if_pos hr, hr]
    · simp only [if_neg hr, decide_eq_true_eq]
      constructor
      · intro h; exact Or.inl h
      · rintro (h | ⟨h, _⟩)
        · exact h
        · exact absurd h hr
  · have hscore : fusedScore S L a ≠ fusedScore S L b := fun h => heq (hcmp_eq.mpr h)
    simp only [if_neg heq, decide_eq_true_eq, hcmp_lt, neg_lt_neg_iff, neg_inj]
    constructor
    · intro h; exact Or.inl h
    · rintro (h | ⟨h, _⟩)
      · exact h
      · exact absurd h hscore

instance (corpus S L : List Chunk) : IsTrans Chunk (fuseRel corpus S L) :=
  ⟨fun a b c hab hbc => by
    rw [fuseRel, fuseLE_iff] at *
    exact le_trans hab hbc⟩

instance (corpus S L : List Chunk) : IsTotal Chunk (fuseRel corpus S L) :=
  ⟨fun a b => by
    simp only [fuseRel, fuseLE_iff]
    exact le_total _ _⟩

theorem sortKey_le_score {corpus S L : List Chunk} {a b : Chunk}
    (h : sortKey corpus S L a ≤ sortKey corpus S L b) :
    fusedScore S L b ≤ fusedScore S L a := by
  rcases (Prod.Lex.le_iff _ _).mp h with h1 | ⟨h1, _⟩
  · exact le_of_lt (neg_lt_neg_iff.mp h1)
  · exact le_of_eq (neg_inj.mp h1).symm

theorem mem_fuse {corpus S L : List Chunk} {c : Chunk} :
    c ∈ fuse corpus S L ↔ c ∈ S ∨ c ∈ L := by
  rw [fuse, List.mem_insertionSort, List.mem_dedup, List.mem_append]

theorem nodup_fuse (corpus S L : List Chunk) : (fuse corpus S L).Nodup :=
  (List.perm_insertionSort (fuseRel corpus S L) _).nodup_iff.mpr (List.nodup_dedup _)

theorem sorted_fuse (corpus S L : List Chunk) :
    (fuse corpus S L).Pairwise (fun a b => fusedScore S L b ≤ fusedScore S L a) := by
  have h := List.sorted_insertionSort (fuseRel corpus S L) ((S ++ L).dedup)
  exact h.imp fun hab => sortKey_le_score ((fuseLE_iff _ _ _ _ _).mp hab)

theorem fuse_eq_nil_iff {corpus S L : List Chunk} :
    fuse corpus S L = [] ↔ S = [] ∧ L = [] := by
  have hperm := List.perm_insertionSort (fuseRel corpus S L) ((S ++ L).dedup)
  constructor
  · intro h
    rw [fuse] at h
    have : (S ++ L).dedup = [] := (h ▸ hperm).symm.eq_nil
    rw [List.dedup_eq_nil] at this
    exact List.append_eq_nil.mp this
  · rintro ⟨h1, h2⟩
    subst h1; subst h2
    rfl

theorem formatFrom_length (ty : String) : ∀ (i : Nat) (docs : List Chunk),
    (formatFrom ty i docs).length = docs.length
  | _, [] => rfl
  | i, _ :: ds => by simp [formatFrom, formatFrom_length ty (i + 1) ds]

theorem formatFrom_eq_nil_iff {ty : String} {i : Nat} {docs : List Chunk} :
    formatFrom ty i docs = [] ↔ docs = [] := by
  cases docs <;> simp [formatFrom]

theorem mem_formatFrom {ty : String} {r : SearchRecord} :
    ∀ {i : Nat} {docs : List Chunk}, r ∈ formatFrom ty i docs →
    ∃ c ∈ docs, r.content = c.content ∧
      r.source = (c.metadata.lookup "source_file").getD "Unknown" ∧
      r.json_file = (c.metadata.lookup "json_file").getD "Unknown" ∧
      r.search_type = ty := by
  intro i docs
  induction docs generalizing i with
  | nil => intro h; simp [formatFrom] at h
  | cons d ds ih =>
    intro h
    rcases List.mem_cons.mp h with h1 | h1
    · exact ⟨d, List.mem_cons_self d ds, by simp [h1]⟩
    · obtain ⟨c, hc, hrest⟩ := ih h1
      exact ⟨c, List.mem_cons_of_mem d hc, hrest⟩

theorem vector_search_eq (semR lexR : List Chunk → String → Int → List Chunk)
    (st : ModuleState) (q : String) (n : Int) :
    vector_search semR lexR st q n =
      .ok ({ st with kSem := n, kLex := n },
        formatResults "hybrid"
          (pySliceTo n (fuse st.docs (semR st.docs q n) (lexR st.docs q n)))) := rfl

theorem pySliceTo_sublist (n : Int) (xs : List α) : (pySliceTo n xs).Sublist xs := by
  unfold pySliceTo
  split <;> exact List.take_sublist _ _

/-! Checks of the spec's worked scenario (section 8): corpus A, B, C; semantic
list [A, B]; lexical list [C, A]; expected scores A = 17/20 = 0.85,
B = 7/20 = 0.35, C = 3/10 = 0.3 (here as exact score fractions) and fused
order [A, B, C]. -/

theorem scenario_scoreFrac_A : scoreFrac [chA, chB] [chC, chA] chA = (17, 20) := by decide

theorem scenario_scoreFrac_B : scoreFrac [chA, chB] [chC, chA] chB = (7, 20) := by decide

theorem scenario_scoreFrac_C : scoreFrac [chA, chB] [chC, chA] chC = (3, 10) := by decide

theorem scenario_fused_order : fuse [chA, chB, chC] [chA, chB] [chC, chA] = [chA, chB, chC] := by
  decide

/-! The claims. -/

/-- C1: for every pair of retriever result lists (spec-modelled Fusion
Engine), the fused output consists exactly of the chunks appearing in either
list, each chunk is assigned the fused score
w_semantic / r_s + w_lexical / r_l (a term being 0 when the chunk is absent
from that list, r being the 1-based rank), and the fused output is listed in
descending order of this fused score. -/
theorem c1_fusion_score_and_order (corpus S L : List Chunk) :
    (∀ c, c ∈ fuse corpus S L ↔ (c ∈ S ∨ c ∈ L)) ∧
    (∀ c, fusedScore S L c =
      (match rank1 c S with | some r => w_semantic / r | none => 0) +
      (match rank1 c L with | some r => w_lexical / r | none => 0)) ∧
    (fuse corpus S L).Pairwise (fun a b => fusedScore S L b ≤ fusedScore S L a) :=
  ⟨fun _ => mem_fuse, fun _ => rfl, sorted_fuse corpus S L⟩

/-- C5: no chunk appears twice in one fused result, even when present in both
source lists, and the truncated list underlying the returned records is
likewise duplicate-free (so no content/metadata pair repeats in the output of
one call). -/
theorem c5_no_duplicates (corpus S L : List Chunk) (n : Int) :
    (fuse corpus S L).Nodup ∧ (pySliceTo n (fuse corpus S L)).Nodup :=
  ⟨nodup_fuse corpus S L, (nodup_fuse corpus S L).sublist (pySliceTo_sublist n _)⟩

/-- C8: a chunk at rank 1 of the semantic list that is absent from the
lexical list strictly outscores a chunk at rank 1 of the lexical list that is
absent from the semantic list (0.7/1 against 0.3/1). -/
theorem c8_weight_sensitivity (S L : List Chunk) (a b : Chunk)
    (haS : rank1 a S = some 1) (haL : a ∉ L)
    (hbL : rank1 b L = some 1) (hbS : b ∉ S) :
    fusedScore S L b < fusedScore S L a := by
  have h1 : rank1 a L = none := rank1_eq_none_iff.mpr haL
  have h2 : rank1 b S = none := rank1_eq_none_iff.mpr hbS
  simp only [fusedScore, rrContribution, haS, hbL, h1, h2, w_semantic, w_lexical,
    Nat.cast_one, div_one]
  norm_num

/-- Witness for C8 at the concrete lists S = [cU], L = [cV]. -/
theorem c8_weight_sensitivity_witness :
    (rank1 cU [cU] = some 1 ∧ cU ∉ [cV] ∧ rank1 cV [cV] = some 1 ∧ cV ∉ [cU]) ∧
    fusedScore [cU] [cV] cV < fusedScore [cU] [cV] cU :=
  ⟨⟨by decide, by decide, by decide, by decide⟩,
    c8_weight_sensitivity [cU] [cV] cU cV (by decide) (by decide) (by decide) (by decide)⟩

/-- C4: for every valid n > 0 and retrievers drawing from the loaded corpus,
a successful search returns at most n records, and returns zero records
exactly when the corpus is empty or both retrievers return empty result lists
for the query. -/
theorem c4_bounded_output (semR lexR : List Chunk → String → Int → List Chunk)
    (st : ModuleState) (q : String) (n : Int)
    (st' : ModuleState) (recs : List SearchRecord)
    (hn : 0 < n)
    (hsem : ∀ c ∈ semR st.docs q n, c ∈ st.docs)
    (hlex : ∀ c ∈ lexR st.docs q n, c ∈ st.docs)
    (hrun : vector_search semR lexR st q n = .ok (st', recs)) :
    recs.length ≤ n.toNat ∧
      (recs = [] ↔ (st.docs = [] ∨ (semR st.docs q n = [] ∧ lexR st.docs q n = []))) := by
  rw [vector_search_eq] at hrun
  simp only [Except.ok.injEq, Prod.mk.injEq] at hrun
  obtain ⟨-, hrecs⟩ := hrun
  have hslice : pySliceTo n (fuse st.docs (semR st.docs q n) (lexR st.docs q n)) =
      (fuse st.docs (semR st.docs q n) (lexR st.docs q n)).take n.toNat := by
    unfold pySliceTo
    rw [if_pos (le_of_lt hn)]
  constructor
  · rw [← hrecs, formatResults, formatFrom_length, hslice, List.length_take]
    exact min_le_left _ _
  · have htn : n.toNat ≠ 0 := by omega
    rw [← hrecs, formatResults, formatFrom_eq_nil_iff, hslice, List.take_eq_nil_iff,
      fuse_eq_nil_iff]
    constructor
    · rintro (h | ⟨h1, h2⟩)
      · exact absurd h htn
      · exact Or.inr ⟨h1, h2⟩
    · rintro (hd | ⟨h1, h2⟩)
      · refine Or.inr ⟨List.eq_nil_iff_forall_not_mem.mpr fun c hc => ?_,
          List.eq_nil_iff_forall_not_mem.mpr fun c hc => ?_⟩
        · exact absurd (hd ▸ hsem c hc) (List.not_mem_nil c)
        · exact absurd (hd ▸ hlex c hc) (List.not_mem_nil c)
      · exact Or.inr ⟨h1, h2⟩

/-- Witness for C4 at the empty corpus with empty retrievers and n = 1. -/
theorem c4_bounded_output_witness :
    ((0 : Int) < 1 ∧
      (∀ c ∈ retEmpty [] "X" 1, c ∈ ([] : List Chunk)) ∧
      (∀ c ∈ retEmpty [] "X" 1, c ∈ ([] : List Chunk)) ∧
      vector_search retEmpty retEmpty ⟨[], 0, 0⟩ "X" 1 = .ok (⟨[], 1, 1⟩, [])) ∧
    (([] : List SearchRecord).length ≤ (1 : Int).toNat ∧
      (([] : List SearchRecord) = [] ↔
        (([] : List Chunk) = [] ∨ (retEmpty [] "X" 1 = [] ∧ retEmpty [] "X" 1 = [])))) :=
  ⟨⟨by decide, fun c hc => by simp [retEmpty] at hc, fun c hc => by simp [retEmpty] at hc,
      rfl⟩,
    c4_bounded_output retEmpty retEmpty ⟨[], 0, 0⟩ "X" 1 ⟨[], 1, 1⟩ [] (by decide)
      (fun c hc => by simp [retEmpty] at hc) (fun c hc => by simp [retEmpty] at hc) rfl⟩

/-- C6: every record returned by a successful search is the projection of a
chunk coming from one of the two retriever result lists, with its source and
json_file fields obtained from the chunk's metadata under the keys
source_file and json_file and defaulting to the sentinel "Unknown" when the
key is absent; every field of a record is a total value. -/
theorem c6_metadata_defaults (semR lexR : List Chunk → String → Int → List Chunk)
    (st : ModuleState) (q : String) (n : Int)
    (st' : ModuleState) (recs : List SearchRecord) (r : SearchRecord)
    (hrun : vector_search semR lexR st q n = .ok (st', recs)) (hr : r ∈ recs) :
    ∃ c, (c ∈ semR st.docs q n ∨ c ∈ lexR st.docs q n) ∧
      r.content = c.content ∧
      r.source = (c.metadata.lookup "source_file").getD "Unknown" ∧
      r.json_file = (c.metadata.lookup "json_file").getD "Unknown" ∧
      (c.metadata.lookup "source_file" = none → r.source = "Unknown") ∧
      (c.metadata.lookup "json_file" = none → r.json_file = "Unknown") := by
  rw [vector_search_eq] at hrun
  simp only [Except.ok.injEq, Prod.mk.injEq] at hrun
  obtain ⟨-, hrecs⟩ := hrun
  rw [← hrecs, formatResults] at hr
  obtain ⟨c, hc, h1, h2, h3, -⟩ := mem_formatFrom hr
  have hcf : c ∈ fuse st.docs (semR st.docs q n) (lexR st.docs q n) :=
    (pySliceTo_sublist n _).subset hc
  refine ⟨c, mem_fuse.mp hcf, h1, h2, h3, fun hnone => ?_, fun hnone => ?_⟩
  · rw [h2, hnone]; rfl
  · rw [h3, hnone]; rfl

/-- Witness for C6: corpus [cU] (a chunk with no metadata), the semantic
retriever returning the corpus, yielding the record recU with both fields
"Unknown". -/
theorem c6_metadata_defaults_witness :
    (vector_search retAll retEmpty ⟨[cU], 0, 0⟩ "X" 5 = Except.ok (⟨[cU], 5, 5⟩, [recU]) ∧
      recU ∈ [recU]) ∧
    (∃ c, (c ∈ retAll [cU] "X" 5 ∨ c ∈ retEmpty [cU] "X" 5) ∧
      recU.content = c.content ∧
      recU.source = (c.metadata.lookup "source_file").getD "Unknown" ∧
      recU.json_file = (c.metadata.lookup "json_file").getD "Unknown" ∧
      (c.metadata.lookup "source_file" = none → recU.source = "Unknown") ∧
      (c.metadata.lookup "json_file" = none → recU.json_file = "Unknown")) :=
  ⟨⟨rfl, by decide⟩,
    c6_metadata_defaults retAll retEmpty ⟨[cU], 0, 0⟩ "X" 5 ⟨[cU], 5, 5⟩ [recU] recU
      rfl (by decide)⟩

/-- C7: for a fixed corpus, query and n_results, the returned record sequence
is identical across calls — the output does not depend on the mutable k
configuration left behind by earlier calls, nor on any other state. -/
theorem c7_determinism (semR lexR : List Chunk → String → Int → List Chunk)
    (st1 st2 : ModuleState) (q : String) (n : Int)
    (hdocs : st1.docs = st2.docs) :
    (vector_search semR lexR st1 q n).map Prod.snd =
      (vector_search semR lexR st2 q n).map Prod.snd := by
  rw [vector_search_eq, vector_search_eq]
  simp [Except.map, hdocs]

/-- Witness for C7: same corpus, different left-over k values from call
history. -/
theorem c7_determinism_witness :
    (ModuleState.mk [cU] 0 0).docs = (ModuleState.mk [cU] 3 7).docs ∧
    (vector_search retAll retEmpty ⟨[cU], 0, 0⟩ "X" 2).map Prod.snd =
      (vector_search retAll retEmpty ⟨[cU], 3, 7⟩ "X" 2).map Prod.snd :=
  ⟨rfl, c7_determinism retAll retEmpty ⟨[cU], 0, 0⟩ ⟨[cU], 3, 7⟩ "X" 2 rfl⟩

/-- C9: every call sets the shared result-count configuration k of both the
semantic and the lexical retriever to n_results before the Fusion Engine is
invoked (the retrievers are consulted at k = n_results, not at their previous
configuration), and modifies nothing else: the loaded corpus field of the
state is returned unchanged. -/
theorem c9_mutates_only_k (semR lexR : List Chunk → String → Int → List Chunk)
    (st : ModuleState) (q : String) (n : Int) :
    vector_search semR lexR st q n =
      Except.ok ({ docs := st.docs, kSem := n, kLex := n },
        formatResults "hybrid"
          (pySliceTo n (fuse st.docs (semR st.docs q n) (lexR st.docs q n)))) :=
  vector_search_eq semR lexR st q n

/-- C10: a call with negative n_results does not fail: both retrievers' k is
set to the negative value, and the final truncation results[:n] follows
Python negative-slice semantics, keeping all but the last |n| entries of the
fused list — so such a call can return a non-empty record list. -/
theorem c10_negative_n_slices (semR lexR : List Chunk → String → Int → List Chunk)
    (st : ModuleState) (q : String) (n : Int) (hn : n < 0) :
    vector_search semR lexR st q n =
      Except.ok ({ docs := st.docs, kSem := n, kLex := n },
        formatResults "hybrid"
          ((fuse st.docs (semR st.docs q n) (lexR st.docs q n)).take
            ((fuse st.docs (semR st.docs q n) (lexR st.docs q n)).length - (-n).toNat))) := by
  rw [vector_search_eq]
  have h : ¬ (0 ≤ n) := not_le.mpr hn
  rw [pySliceTo, if_neg h]

/-- Witness for C10: corpus [cU, cV], semantic retriever returning the whole
corpus, n_results = -1: the call returns the single record for cU — a
non-empty result despite the negative requested count. -/
theorem c10_negative_n_slices_witness :
    ((-1 : Int) < 0 ∧
      vector_search retAll retEmpty ⟨[cU, cV], 0, 0⟩ "X" (-1) =
        Except.ok (⟨[cU, cV], -1, -1⟩,
          formatResults "hybrid"
            ((fuse [cU, cV] (retAll [cU, cV] "X" (-1)) (retEmpty [cU, cV] "X" (-1))).take
              ((fuse [cU, cV] (retAll [cU, cV] "X" (-1))
                  (retEmpty [cU, cV] "X" (-1))).length - ((-(-1 : Int)).toNat))))) ∧
    formatResults "hybrid"
        ((fuse [cU, cV] (retAll [cU, cV] "X" (-1)) (retEmpty [cU, cV] "X" (-1))).take
          ((fuse [cU, cV] (retAll [cU, cV] "X" (-1))
              (retEmpty [cU, cV] "X" (-1))).length - ((-(-1 : Int)).toNat))) = [recU] :=
  ⟨⟨by decide,
      c10_negative_n_slices retAll retEmpty ⟨[cU, cV], 0, 0⟩ "X" (-1) (by decide)⟩,
    by decide⟩

/-- Counterexample to C2 as stated: the source performs no query validation,
so the call search("", 5) does not fail with InvalidArgument — it returns an
ok result list (here the empty one, for the empty corpus). -/
theorem c2_counterexample :
    isBlank "" = true ∧
    vector_search retEmpty retEmpty ⟨[], 0, 0⟩ "" 5 = Except.ok (⟨[], 5, 5⟩, []) ∧
    vector_search retEmpty retEmpty ⟨[], 0, 0⟩ "" 5 ≠ Except.error SearchError.invalidArgument :=
  ⟨by decide, rfl, fun h => by simp [vector_search] at h⟩

/-- C2 amended: a call whose query is empty after trimming whitespace does
not fail; vector_search validates nothing and returns an ok result list for
every query. -/
theorem c2_amended_no_query_validation (semR lexR : List Chunk → String → Int → List Chunk)
    (st : ModuleState) (q : String) (n : Int) (_hq : isBlank q = true) :
    ∃ st' recs, vector_search semR lexR st q n = Except.ok (st', recs) :=
  ⟨_, _, vector_search_eq semR lexR st q n⟩

/-- Witness for the amended C2 at the concrete call search("", 5). -/
theorem c2_amended_witness :
    isBlank "" = true ∧
    ∃ st' recs, vector_search retEmpty retEmpty ⟨[], 0, 0⟩ "" 5 = Except.ok (st', recs) :=
  ⟨by decide, c2_amended_no_query_validation retEmpty retEmpty ⟨[], 0, 0⟩ "" 5 (by decide)⟩

/-- Counterexample to C3 as stated: the source performs no n_results
validation, so the call search("X", 0) does not fail with InvalidArgument —
it returns ok with the empty record list (truncation at 0), even over a
non-empty corpus with a non-empty retriever result. -/
theorem c3_counterexample :
    vector_search retAll retEmpty ⟨[cU], 3, 3⟩ "X" 0 = Except.ok (⟨[cU], 0, 0⟩, []) ∧
    vector_search retAll retEmpty ⟨[cU], 3, 3⟩ "X" 0 ≠ Except.error SearchError.invalidArgument :=
  ⟨rfl, fun h => by simp [vector_search] at h⟩

/-- C3 amended: a call with non-positive n_results does not fail: the
operation still returns an ok result list, which for n_results = 0 is the
empty list. -/
theorem c3_amended_nonpositive_n (semR lexR : List Chunk → String → Int → List Chunk)
    (st : ModuleState) (q : String) (n : Int) (hn : n ≤ 0) :
    ∃ st' recs, vector_search semR lexR st q n = Except.ok (st', recs) ∧
      (n = 0 → recs = []) := by
  refine ⟨_, _, vector_search_eq semR lexR st q n, fun h0 => ?_⟩
  subst h0
  simp [pySliceTo, formatResults, formatFrom]

/-- Witness for the amended C3 at the concrete call search("X", 0). -/
theorem c3_amended_witness :
    (0 : Int) ≤ 0 ∧
    ∃ st' recs, vector_search retAll retEmpty ⟨[cU], 3, 3⟩ "X" 0 = Except.ok (st', recs) ∧
      ((0 : Int) = 0 → recs = []) :=
  ⟨le_refl 0, c3_amended_nonpositive_n retAll retEmpty ⟨[cU], 3, 3⟩ "X" 0 (le_refl 0)⟩
